import Mathlib

/-!
Verification of the process-management core of a teaching OS kernel
(an xv6 derivative): the MLFQ scheduler with a monopolize mode
(`proc.c`, `trap.c`) and the reference-counting page allocator
(`kalloc.c`).  The C code is shallowly embedded: the process table is a
list of process control blocks together with the `numProc` eligible-count
array (modelled as a function `Nat → Int`), the allocator state is a
record of the reference-count array, the free list and the free-page
counter.  `myproc()` is modelled as an explicit parameter, and a fatal
`panic` is modelled as `Option.none`.
-/

/-- Process states, from `proc.h` (standard xv6). -/
inductive ProcState
  | UNUSED
  | EMBRYO
  | SLEEPING
  | RUNNABLE
  | RUNNING
  | ZOMBIE
deriving DecidableEq, Repr

open ProcState

/-- The fields of `struct proc` that the scheduler core reads and
writes: pid, state, MLFQ level, tick counter, priority, monopolize
flag, killed flag, sleep channel and parent link.  Resources owned by
the PCB (kernel stack, page directory, files) are outside the model. -/
structure Proc where
  pid : Nat
  state : ProcState
  level : Nat
  tick : Nat
  priority : Int
  monopolize : Nat
  killed : Bool
  chan : Nat
  parent : Option Nat
deriving DecidableEq, Repr

/-- Pointwise array update, used for the `numProc` and `ref_cnt` C arrays. -/
def upd {α : Type} (f : Nat → α) (i : Nat) (v : α) : Nat → α :=
  fun j => if j = i then v else f j

/-- The process table `ptable`: the `proc` array (as a list) and the
`numProc` eligible-count array (`int numProc[6]`). -/
structure PTable where
  procs : List Proc
  numProc : Nat → Int

/-- Number of RUNNABLE, non-monopolized processes at level `L`. -/
def eligAt (L : Nat) (l : List Proc) : Nat :=
  l.countP (fun p => decide (p.state = RUNNABLE ∧ p.level = L ∧ p.monopolize = 0))

/-- Number of RUNNABLE, non-monopolized processes at any level. -/
def eligReady (l : List Proc) : Nat :=
  l.countP (fun p => decide (p.state = RUNNABLE ∧ p.monopolize = 0))

/-- Number of RUNNABLE, non-monopolized processes at a level below 4. -/
def eligReadyLe3 (l : List Proc) : Nat :=
  l.countP (fun p => decide (p.state = RUNNABLE ∧ p.monopolize = 0 ∧ p.level < 4))

/-- Number of monopolized processes. -/
def monoCount (l : List Proc) : Nat :=
  l.countP (fun p => decide (p.monopolize = 1))

/-- The eligible-count invariant from the specification: `numProc[L]`
equals the number of RUNNABLE, non-monopolized PCBs at level `L` for
`L = 0..3`, and `numProc[4]` equals the number of monopolized PCBs. -/
def countInv (t : PTable) : Prop :=
  t.numProc 0 = (eligAt 0 t.procs : Int) ∧
  t.numProc 1 = (eligAt 1 t.procs : Int) ∧
  t.numProc 2 = (eligAt 2 t.procs : Int) ∧
  t.numProc 3 = (eligAt 3 t.procs : Int) ∧
  t.numProc 4 = (monoCount t.procs : Int)

instance (t : PTable) : Decidable (countInv t) := by
  unfold countInv; exact inferInstance

/-- `wakeup1`, the per-process step: a process SLEEPING on `chan`
becomes RUNNABLE (`proc.c` lines 703-711).  Note that `numProc` is not
touched. -/
def wakeupStep (c : Nat) (p : Proc) : Proc :=
  if p.state = SLEEPING ∧ p.chan = c then { p with state := RUNNABLE } else p

/-- `wakeup1` over the whole table. -/
def wakeup1 (c : Nat) (l : List Proc) : List Proc :=
  l.map (wakeupStep c)

/-- `wakeup`: wakes all sleepers on `c` under the table lock; it does
not modify `numProc`. -/
def wakeup (c : Nat) (t : PTable) : PTable :=
  { t with procs := wakeup1 c t.procs }

/-- Per-process aging on a timer tick, from `trap.c` lines 70-103: for
the RUNNING current process, a monopolized process has its tick counter
reset to 0; otherwise the tick counter is incremented and, when it
reaches the quantum `2*level + 2`, the process is demoted (level 0 →
level 1 for odd pid, level 2 for even pid; levels 1,2 → level 3; at
level 3 the nonzero priority is decremented) with the counter reset. -/
def agingStep (p : Proc) : Proc :=
  if p.state = RUNNING then
    if p.monopolize = 1 then { p with tick := 0 }
    else
      if 2 * p.level + 2 ≤ p.tick + 1 then
        if p.level = 0 then
          if p.pid % 2 = 1 then { p with level := 1, tick := 0 }
          else { p with level := 2, tick := 0 }
        else if p.level = 1 ∨ p.level = 2 then { p with level := 3, tick := 0 }
        else if p.level = 3 then
          { p with priority := if p.priority ≠ 0 then p.priority - 1 else p.priority,
                   tick := 0 }
        else { p with tick := p.tick + 1 }
      else { p with tick := p.tick + 1 }
  else p

/-- One pass of the `priority_boosting` loop (`proc.c` lines 317-335):
for each process in table order, the level-0 count is incremented for a
RUNNABLE non-monopolized process at level 0, or incremented with the
count of its level (1, 2 or 3) decremented; every process then has its
level and tick reset to 0 (priority is left untouched). -/
def boostList (np : Nat → Int) : List Proc → (Nat → Int) × List Proc
  | [] => (np, [])
  | p :: rest =>
    let np1 :=
      if p.state = RUNNABLE ∧ p.level = 0 ∧ p.monopolize = 0 then
        upd np 0 (np 0 + 1)
      else if p.state = RUNNABLE ∧ (p.level = 1 ∨ p.level = 2 ∨ p.level = 3) ∧
               p.monopolize = 0 then
        let npa := upd np 0 (np 0 + 1)
        upd npa p.level (npa p.level - 1)
      else np
    let r := boostList np1 rest
    (r.1, { p with level := 0, tick := 0 } :: r.2)

/-- `priority_boosting`: zeroes `numProc[0]` and runs the boost loop. -/
def priority_boosting (t : PTable) : PTable :=
  let r := boostList (upd t.numProc 0 0) t.procs
  { procs := r.2, numProc := r.1 }

/-- In-place update of the i-th table slot (a C write through a
pointer into the `proc` array). -/
def modifyAt {α : Type} : List α → Nat → (α → α) → List α
  | [], _, _ => []
  | x :: xs, 0, f => f x :: xs
  | x :: xs, Nat.succ n, f => x :: modifyAt xs n f

/-- The timer-interrupt path of `trap` on the tick-keeper CPU (cpu 0),
`trap.c` lines 52-105: increment the global tick counter; if it reaches
100, reset it to 0 and flag a boost; wake sleepers on the tick channel
`tc`; then either run `priority_boosting` or age the RUNNING current
process (`cur` is the index of `myproc()` in the table, `none` when no
process is running on this CPU). -/
def trap_timer (ticks : Nat) (tc : Nat) (t : PTable) (cur : Option Nat) :
    Nat × PTable :=
  let nt := ticks + 1
  if nt = 100 then (0, priority_boosting (wakeup tc t))
  else
    let t1 := wakeup tc t
    match cur with
    | none => (nt, t1)
    | some i => (nt, { t1 with procs := modifyAt t1.procs i agingStep })

/-- Concrete table for the C1 exhibit: one process SLEEPING on channel
7 at level 0, all counts zero (the invariant holds). -/
def c1Table : PTable :=
  { procs := [{ pid := 1, state := SLEEPING, level := 0, tick := 0, priority := 0,
                monopolize := 0, killed := false, chan := 7, parent := none }],
    numProc := fun _ => 0 }

/-- Concrete process for the C2 witness: RUNNING at level 0 with one
accumulated tick, even pid. -/
def c2P : Proc :=
  { pid := 2, state := RUNNING, level := 0, tick := 1, priority := 3,
    monopolize := 0, killed := false, chan := 0, parent := none }

/-- Concrete table for the C2 witness. -/
def c2T : PTable := { procs := [c2P], numProc := fun _ => 0 }

/-- Concrete table for the C3 witness: one RUNNABLE level-2 process
and one process SLEEPING on channel 4. -/
def c3T : PTable :=
  { procs := [{ pid := 3, state := RUNNABLE, level := 2, tick := 1, priority := 5,
                monopolize := 0, killed := false, chan := 0, parent := none },
              { pid := 4, state := SLEEPING, level := 1, tick := 0, priority := 2,
                monopolize := 0, killed := false, chan := 4, parent := none }],
    numProc := fun j => if j = 2 then 1 else 0 }

/-- `unmonopolize` (`proc.c` lines 423-444): for the current process
`p` (`myproc()`, modelled as a parameter), when its monopolize flag is
1 it is set RUNNABLE and one unit of eligibility count is moved from
`numProc[4]` back to `numProc[p->level]`.  The monopolize flag itself
is never cleared. -/
def unmonopolize (p : Proc) (np : Nat → Int) : Proc × (Nat → Int) :=
  if p.monopolize = 1 then
    ({ p with state := RUNNABLE },
      if p.level = 0 then upd (upd np 0 (np 0 + 1)) 4 ((upd np 0 (np 0 + 1)) 4 - 1)
      else if p.level = 1 then upd (upd np 1 (np 1 + 1)) 4 ((upd np 1 (np 1 + 1)) 4 - 1)
      else if p.level = 2 then upd (upd np 2 (np 2 + 1)) 4 ((upd np 2 (np 2 + 1)) 4 - 1)
      else if p.level = 3 then upd (upd np 3 (np 3 + 1)) 4 ((upd np 3 (np 3 + 1)) 4 - 1)
      else np)
  else (p, np)

/-- The dedicated exclusive-dispatch routine `monopolize` (`proc.c`
lines 446-466).  The source first does `c->proc = 0` and then reads
`myproc()->monopolize` (line 451); `myproc()` returns `mycpu()->proc`,
i.e. the pointer the routine just zeroed, so whatever the entry value
`_cprocEntry` of `c->proc` (it is `0` anyway at the only call site,
the scheduler's exclusive branch, `proc.c` lines 504-507), the read
dereferences the null pointer and the kernel faults (modelled `none`).
The `some` branch transcribes the body that a non-null current process
would run — publish state RUNNABLE (not RUNNING), hand off via `run`,
then `c->proc = 0` again followed by `unmonopolize()` — but that body
is unreachable, and its final `unmonopolize()` call reads `myproc()`
(`proc.c` line 424) from the re-zeroed pointer, faulting again.  `np`
is the count table the dead body would use. -/
def monopolize (_cprocEntry : Option Proc) (np : Nat → Int)
    (run : Proc → Proc) : Option ((Option Proc) × (Nat → Int)) :=
  let cproc : Option Proc := none
  match cproc with
  | none => none
  | some q =>
    if q.monopolize = 1 then
      let _p2 := run { q with state := RUNNABLE }
      none
    else some (cproc, np)

/-- The branch the scheduler loop takes for the scanned process `p`
(the guard chain of `scheduler`, `proc.c` lines 500-597): skip unless
RUNNABLE, else the exclusive monopolize path, else the level-0, -1, -2
round-robin branches guarded by the `numProc` counts, else the level-3
priority branch. -/
inductive SchedBranch
  | skip
  | exclusive
  | l0
  | l1
  | l2
  | l3
deriving DecidableEq, Repr

/-- Guard chain of the scheduler loop body for one scanned process. -/
def schedBranch (np : Nat → Int) (p : Proc) : SchedBranch :=
  if p.state ≠ RUNNABLE then SchedBranch.skip
  else if p.monopolize = 1 then SchedBranch.exclusive
  else if np 0 ≠ 0 ∧ p.level = 0 ∧ p.monopolize = 0 then SchedBranch.l0
  else if np 0 = 0 ∧ 0 < np 1 ∧ p.level = 1 ∧ p.monopolize = 0 then SchedBranch.l1
  else if np 0 = 0 ∧ np 1 = 0 ∧ 0 < np 2 ∧ p.level = 2 ∧ p.monopolize = 0 then
    SchedBranch.l2
  else SchedBranch.l3

/-- Concrete RUNNABLE monopolized process for the C4 exhibit: the kind
of table entry that sends the scheduler into the exclusive branch. -/
def c4P : Proc :=
  { pid := 2, state := RUNNABLE, level := 1, tick := 0, priority := 0,
    monopolize := 1, killed := false, chan := 0, parent := none }

/-- Concrete count table for the C4 exhibit: `c4P` is accounted in the
monopolized slot `numProc[4]`. -/
def c4NP : Nat → Int := fun j => if j = 4 then 1 else 0

/-- One step of the level-3 selection loop in `scheduler` (`proc.c`
lines 573-583): the running best `b` is replaced by the candidate `c`
when `c` is RUNNABLE at level 3 and has strictly greater priority, or
equal priority and strictly smaller pid.  Pairs carry the table index
of the process (the C code holds a pointer into the table). -/
def pickStep (b c : Nat × Proc) : Nat × Proc :=
  if c.2.state = RUNNABLE ∧ c.2.level = 3 ∧ b.2.priority < c.2.priority then c
  else if c.2.state = RUNNABLE ∧ c.2.level = 3 ∧ c.2.priority = b.2.priority ∧
      c.2.pid < b.2.pid then c
  else b

/-- The table paired with indices, for the selection scan. -/
def enumFrom : Nat → List Proc → List (Nat × Proc)
  | _, [] => []
  | i, x :: xs => (i, x) :: enumFrom (i + 1) xs

/-- The level-3 selection loop: fold `pickStep` over the whole table
starting from the scheduler's scanned process `b` at index `bi`. -/
def schedPickL3 (l : List Proc) (bi : Nat) (b : Proc) : Nat × Proc :=
  (enumFrom 0 l).foldl pickStep (bi, b)

/-- The level-3 dispatch branch of `scheduler` (`proc.c` lines
567-597): select by priority (ties to the smaller pid), mark the
selected process RUNNING, and decrement `numProc[3]`.  Returns the
updated table and the index of the dispatched process. -/
def schedDispatchL3 (t : PTable) (bi : Nat) (b : Proc) : PTable × Nat :=
  ({ procs := modifyAt t.procs (schedPickL3 t.procs bi b).1
       (fun q => { q with state := RUNNING }),
     numProc := upd t.numProc 3 (t.numProc 3 - 1) },
   (schedPickL3 t.procs bi b).1)

/-- The level-3 selection order: greater priority first, ties broken by
smaller pid. -/
def prioGE (a b : Proc) : Prop :=
  b.priority < a.priority ∨ (a.priority = b.priority ∧ a.pid ≤ b.pid)

/-- Concrete processes and table for the C5 witness: two RUNNABLE
level-3 processes with equal priority and pids 7 and 4. -/
def c5p0 : Proc :=
  { pid := 7, state := RUNNABLE, level := 3, tick := 0, priority := 5,
    monopolize := 0, killed := false, chan := 0, parent := none }

/-- Second process for the C5 witness. -/
def c5p1 : Proc :=
  { pid := 4, state := RUNNABLE, level := 3, tick := 0, priority := 5,
    monopolize := 0, killed := false, chan := 0, parent := none }

/-- Table for the C5 witness. -/
def c5T : PTable :=
  { procs := [c5p0, c5p1], numProc := fun j => if j = 3 then 2 else 0 }

/-- The search loop of `setmonopoly` (`proc.c` lines 390-417): find the
first process whose pid matches; with the correct password and a
not-yet-monopolized target, set its monopolize flag, move one count
from `numProc[level]` to `numProc[4]` and return the new `numProc[4]`;
otherwise return the sentinel -3 (already monopolized), -2 (wrong
password) or -1 (pid not found), leaving everything unchanged. -/
def setmonoLoop (pid : Nat) (password : Int) (np : Nat → Int) :
    List Proc → List Proc × (Nat → Int) × Int
  | [] => ([], np, -1)
  | p :: rest =>
    if p.pid = pid then
      if password = 2021057301 then
        if p.monopolize = 0 then
          ({ p with monopolize := 1 } :: rest,
           upd (upd np p.level (np p.level - 1)) 4
             ((upd np p.level (np p.level - 1)) 4 + 1),
           (upd (upd np p.level (np p.level - 1)) 4
             ((upd np p.level (np p.level - 1)) 4 + 1)) 4)
        else (p :: rest, np, -3)
      else (p :: rest, np, -2)
    else
      ((p :: (setmonoLoop pid password np rest).1),
       (setmonoLoop pid password np rest).2.1,
       (setmonoLoop pid password np rest).2.2)

/-- `setmonopoly` (`proc.c` lines 373-421): the caller (`myproc()`,
whose pid is `curpid`) may not target itself (sentinel -4); otherwise
the table is searched by pid. -/
def setmonopoly (curpid : Nat) (t : PTable) (pid : Nat) (password : Int) :
    PTable × Int :=
  if pid = curpid then (t, -4)
  else
    ({ procs := (setmonoLoop pid password t.numProc t.procs).1,
       numProc := (setmonoLoop pid password t.numProc t.procs).2.1 },
     (setmonoLoop pid password t.numProc t.procs).2.2)

/-- Concrete caller-side process for the C6 witness. -/
def c6A : Proc :=
  { pid := 1, state := RUNNING, level := 0, tick := 0, priority := 0,
    monopolize := 0, killed := false, chan := 0, parent := none }

/-- Concrete target process for the C6 witness: pid 2, level 2, not
yet monopolized. -/
def c6B : Proc :=
  { pid := 2, state := RUNNABLE, level := 2, tick := 0, priority := 0,
    monopolize := 0, killed := false, chan := 0, parent := none }

/-- Concrete table for the C6 witness. -/
def c6T : PTable :=
  { procs := [c6A, c6B], numProc := fun j => if j = 2 then 1 else 0 }

/-- Page size, from `mmu.h` (standard xv6). -/
def PGSIZE : Nat := 4096

/-- Kernel base virtual address `0x80000000`, from `memlayout.h`. -/
def KERNBASE : Nat := 2147483648

/-- Top of managed physical memory `0xE000000`, from `memlayout.h`. -/
def PHYSTOP : Nat := 234881024

/-- `V2P(v) = v - KERNBASE` in 32-bit unsigned arithmetic; since
`KERNBASE = 2^31`, subtracting `2^31` mod `2^32` equals adding it. -/
def V2P (v : Nat) : Nat := (v + KERNBASE) % 4294967296

/-- The allocator state `kmem` (`kalloc.c` lines 24-30): the per-frame
reference-count array `ref_cnt` (indexed by frame number), the free
list (as the list of page virtual addresses it chains through), the
free-page counter, and whether a page has been overwritten with the
debug fill pattern (the `memset(v, 1, PGSIZE)` in `kfree`). -/
structure Kmem where
  ref_cnt : Nat → Int
  freelist : List Nat
  num_freePage : Int
  junk : Nat → Bool

/-- The conditional decrement in `kfree` (`kalloc.c` lines 85-86): the
count is decremented only when positive. -/
def kfree_rc (k : Kmem) (i : Nat) : Int :=
  if 0 < k.ref_cnt i then k.ref_cnt i - 1 else k.ref_cnt i

/-- `kfree` (`kalloc.c` lines 68-98): panic (`none`) when `v` is
misaligned, below the kernel image end `endAddr`, or at or above
`PHYSTOP`; otherwise decrement the count if positive, and when the
count is then 0 fill the page with the debug pattern, push it onto the
free list and increment the free-page counter. -/
def kfree (endAddr : Nat) (k : Kmem) (v : Nat) : Option Kmem :=
  if v % PGSIZE ≠ 0 ∨ v < endAddr ∨ PHYSTOP ≤ V2P v then none
  else if kfree_rc k (V2P v / PGSIZE) = 0 then
    some { ref_cnt := upd k.ref_cnt (V2P v / PGSIZE) (kfree_rc k (V2P v / PGSIZE)),
           freelist := v :: k.freelist,
           num_freePage := k.num_freePage + 1,
           junk := upd k.junk v true }
  else
    some { k with ref_cnt := upd k.ref_cnt (V2P v / PGSIZE)
                    (kfree_rc k (V2P v / PGSIZE)) }

/-- `kalloc` (`kalloc.c` lines 103-123): pop the free-list head, set
its reference count to 1, decrement the free-page counter; `none` when
the free list is empty. -/
def kalloc (k : Kmem) : Option (Kmem × Nat) :=
  match k.freelist with
  | [] => none
  | r :: rest =>
    some ({ k with freelist := rest,
                   ref_cnt := upd k.ref_cnt (V2P r / PGSIZE) 1,
                   num_freePage := k.num_freePage - 1 }, r)

/-- `incr_refc` (`kalloc.c` lines 126-136): unconditional increment of
the count of the frame holding physical address `pa`. -/
def incr_refc (k : Kmem) (pa : Nat) : Kmem :=
  { k with ref_cnt := upd k.ref_cnt (pa / PGSIZE) (k.ref_cnt (pa / PGSIZE) + 1) }

/-- `decr_refc` (`kalloc.c` lines 139-147): unconditional decrement. -/
def decr_refc (k : Kmem) (pa : Nat) : Kmem :=
  { k with ref_cnt := upd k.ref_cnt (pa / PGSIZE) (k.ref_cnt (pa / PGSIZE) - 1) }

/-- `get_refc` (`kalloc.c` lines 150-164). -/
def get_refc (k : Kmem) (pa : Nat) : Int := k.ref_cnt (pa / PGSIZE)

/-- `countfp` (`kalloc.c` lines 167-175). -/
def countfp (k : Kmem) : Int := k.num_freePage

/-- Three `incr_refc` calls on the same physical address, the C7 test
scenario. -/
def incr3 (k : Kmem) (pa : Nat) : Kmem :=
  incr_refc (incr_refc (incr_refc k pa) pa) pa

/-- `n` successive `kfree` calls on the same page. -/
def kfreeN : Nat → Nat → Kmem → Nat → Option Kmem
  | 0, _, k, _ => some k
  | n + 1, e, k, v => (kfree e k v).bind fun a => kfreeN n e a v

/-- Concrete page address for the C7 witness: the third page above
`KERNBASE`, aligned and in range. -/
def c7V : Nat := KERNBASE + 8192

/-- Concrete allocator state for the C7 witness: the frame of `c7V`
freshly allocated (count 1), free list empty. -/
def c7K : Kmem :=
  { ref_cnt := upd (fun _ => 0) 2 1, freelist := [], num_freePage := 7,
    junk := fun _ => false }

/-- Concrete allocator state for the C8 counterexample: every count 0. -/
def c8K : Kmem :=
  { ref_cnt := fun _ => 0, freelist := [], num_freePage := 0,
    junk := fun _ => false }

/-- Concrete page address for the C8 counterexample. -/
def c8V : Nat := KERNBASE + 4096

/-- Concrete allocator state for the C9 exhibits. -/
def c9K : Kmem :=
  { ref_cnt := fun _ => 0, freelist := [0], num_freePage := 1,
    junk := fun _ => false }

/-- The search loop of `kill` (`proc.c` lines 730-742): the first slot
whose pid matches — with no check of the slot's state — gets its killed
flag set and, when SLEEPING, is promoted to RUNNABLE; return 0.  If no
slot matches, return -1.  `numProc` is never touched. -/
def killLoop (pid : Nat) : List Proc → List Proc × Int
  | [] => ([], -1)
  | p :: rest =>
    if p.pid = pid then
      ((if p.state = SLEEPING then { p with killed := true, state := RUNNABLE }
        else { p with killed := true }) :: rest, 0)
    else
      (p :: (killLoop pid rest).1, (killLoop pid rest).2)

/-- `kill` over the table. -/
def kill (t : PTable) (pid : Nat) : PTable × Int :=
  ({ t with procs := (killLoop pid t.procs).1 }, (killLoop pid t.procs).2)

/-- The search loop of `setpriority` (`proc.c` lines 347-354): the
first slot whose pid matches — with no check of the slot's state — gets
the priority written; return 0, or -1 when no slot matches. -/
def setprioLoop (pid : Nat) (priority : Int) : List Proc → List Proc × Int
  | [] => ([], -1)
  | p :: rest =>
    if p.pid = pid then ({ p with priority := priority } :: rest, 0)
    else (p :: (setprioLoop pid priority rest).1, (setprioLoop pid priority rest).2)

/-- `setpriority` (`proc.c` lines 338-358): reject priorities outside
0..10 with -2, otherwise search by pid. -/
def setpriority (t : PTable) (pid : Nat) (priority : Int) : PTable × Int :=
  if priority < 0 ∨ 10 < priority then (t, -2)
  else
    ({ t with procs := (setprioLoop pid priority t.procs).1 },
     (setprioLoop pid priority t.procs).2)

/-- The field clearing `wait` performs when reaping a ZOMBIE child
(`proc.c` lines 293-297): pid cleared to 0, parent and killed cleared,
state set to UNUSED. -/
def reap (p : Proc) : Proc :=
  { p with pid := 0, parent := none, killed := false, state := UNUSED }

/-- Concrete live process for the C10 witness. -/
def c10A : Proc :=
  { pid := 1, state := RUNNING, level := 0, tick := 0, priority := 0,
    monopolize := 0, killed := false, chan := 0, parent := none }

/-- Concrete ZOMBIE process about to be reaped, for the C10 witness. -/
def c10Z : Proc :=
  { pid := 5, state := ZOMBIE, level := 3, tick := 0, priority := 4,
    monopolize := 0, killed := true, chan := 0, parent := some 0 }

/-- Concrete table for the C10 witness: a live process and a reaped
slot whose pid has been cleared to 0. -/
def c10T : PTable :=
  { procs := [c10A, reap c10Z], numProc := fun _ => 0 }

/-- Reading back the slot a `modifyAt` wrote. -/
theorem modifyAt_get?_self {α : Type} (l : List α) (i : Nat) (f : α → α) :
    (modifyAt l i f).get? i = (l.get? i).map f := by
  induction l generalizing i with
  | nil => simp [modifyAt]
  | cons x xs ih =>
    cases i with
    | zero => simp [modifyAt]
    | succ n => simpa [modifyAt] using ih n

/-- `wakeup1` leaves a process that is not SLEEPING unchanged. -/
theorem wakeupStep_of_not_sleeping (c : Nat) (p : Proc) (h : p.state ≠ SLEEPING) :
    wakeupStep c p = p := by
  unfold wakeupStep
  rw [if_neg]
  rintro ⟨h1, -⟩
  exact h h1

/-- `wakeupStep` only changes the `state` field. -/
theorem wakeupStep_fields (c : Nat) (p : Proc) :
    (wakeupStep c p).level = p.level ∧ (wakeupStep c p).priority = p.priority ∧
    (wakeupStep c p).monopolize = p.monopolize ∧ (wakeupStep c p).tick = p.tick := by
  unfold wakeupStep
  split <;> exact ⟨rfl, rfl, rfl, rfl⟩

/-- `wakeup1` preserves the priority of every slot. -/
theorem wakeup1_map_priority (c : Nat) (l : List Proc) :
    (wakeup1 c l).map Proc.priority = l.map Proc.priority := by
  induction l with
  | nil => rfl
  | cons p rest ih =>
    simp only [wakeup1, List.map_cons] at ih ⊢
    rw [ih, (wakeupStep_fields c p).2.1]

/-- `wakeup1` keeps every level below 4 if it was so before. -/
theorem wakeup1_level_lt (c : Nat) (l : List Proc)
    (h : ∀ p ∈ l, p.level < 4) : ∀ p ∈ wakeup1 c l, p.level < 4 := by
  intro q hq
  obtain ⟨p, hp, rfl⟩ := List.mem_map.mp hq
  rw [(wakeupStep_fields c p).1]
  exact h p hp

/-- Characterization of the `priority_boosting` loop: it resets every
level and tick to 0 (leaving everything else in each slot unchanged),
adds to `numProc[0]` the number of RUNNABLE non-monopolized processes
with level below 4, and subtracts from `numProc[L]` (`L = 1,2,3`) the
number of RUNNABLE non-monopolized processes at level `L`. -/
theorem boostList_spec (l : List Proc) : ∀ np : Nat → Int,
    (boostList np l).2 = l.map (fun p => { p with level := 0, tick := 0 }) ∧
    (boostList np l).1 0 = np 0 + (eligReadyLe3 l : Int) ∧
    (boostList np l).1 1 = np 1 - (eligAt 1 l : Int) ∧
    (boostList np l).1 2 = np 2 - (eligAt 2 l : Int) ∧
    (boostList np l).1 3 = np 3 - (eligAt 3 l : Int) := by
  induction l with
  | nil =>
    intro np
    simp [boostList, eligReadyLe3, eligAt]
  | cons p rest ih =>
    intro np
    by_cases hb1 : p.state = RUNNABLE ∧ p.level = 0 ∧ p.monopolize = 0
    · have hrw : boostList np (p :: rest) =
          ((boostList (upd np 0 (np 0 + 1)) rest).1,
           { p with level := 0, tick := 0 } ::
             (boostList (upd np 0 (np 0 + 1)) rest).2) := by
        simp only [boostList, if_pos hb1]
      obtain ⟨i1, i2, i3, i4, i5⟩ := ih (upd np 0 (np 0 + 1))
      rw [hrw]
      have hc0 : eligReadyLe3 (p :: rest) = eligReadyLe3 rest + 1 := by
        simp [eligReadyLe3, List.countP_cons, hb1.1, hb1.2.1, hb1.2.2]
      have hc1 : eligAt 1 (p :: rest) = eligAt 1 rest := by
        simp [eligAt, List.countP_cons, hb1.2.1]
      have hc2 : eligAt 2 (p :: rest) = eligAt 2 rest := by
        simp [eligAt, List.countP_cons, hb1.2.1]
      have hc3 : eligAt 3 (p :: rest) = eligAt 3 rest := by
        simp [eligAt, List.countP_cons, hb1.2.1]
      refine ⟨by simp [i1], ?_, ?_, ?_, ?_⟩
      · rw [i2, hc0]; simp [upd]; push_cast; ring
      · rw [i3, hc1]; simp [upd]
      · rw [i4, hc2]; simp [upd]
      · rw [i5, hc3]; simp [upd]
    · by_cases hb2 : p.state = RUNNABLE ∧ (p.level = 1 ∨ p.level = 2 ∨ p.level = 3) ∧
          p.monopolize = 0
      · have hrw : boostList np (p :: rest) =
            ((boostList (upd (upd np 0 (np 0 + 1)) p.level
                ((upd np 0 (np 0 + 1)) p.level - 1)) rest).1,
             { p with level := 0, tick := 0 } ::
               (boostList (upd (upd np 0 (np 0 + 1)) p.level
                 ((upd np 0 (np 0 + 1)) p.level - 1)) rest).2) := by
          simp only [boostList, if_neg hb1, if_pos hb2]
        obtain ⟨hs, hl, hm⟩ := hb2
        obtain ⟨i1, i2, i3, i4, i5⟩ := ih (upd (upd np 0 (np 0 + 1)) p.level
          ((upd np 0 (np 0 + 1)) p.level - 1))
        rw [hrw]
        have hc0 : eligReadyLe3 (p :: rest) = eligReadyLe3 rest + 1 := by
          simp [eligReadyLe3, List.countP_cons, hs, hm]
          omega
        refine ⟨by simp [i1], ?_, ?_, ?_, ?_⟩
        · rw [i2, hc0]
          have h0 : ¬ (0 : Nat) = p.level := by omega
          simp [upd, h0]; push_cast; ring
        · rw [i3]
          by_cases h : p.level = 1
          · have hc : eligAt 1 (p :: rest) = eligAt 1 rest + 1 := by
              simp [eligAt, List.countP_cons, hs, hm, h]
            rw [hc]; simp [upd, h]; push_cast; ring
          · have hc : eligAt 1 (p :: rest) = eligAt 1 rest := by
              simp [eligAt, List.countP_cons, h]
            rw [hc]
            simp only [upd]
            rw [if_neg (by omega), if_neg (by omega)]
        · rw [i4]
          by_cases h : p.level = 2
          · have hc : eligAt 2 (p :: rest) = eligAt 2 rest + 1 := by
              simp [eligAt, List.countP_cons, hs, hm, h]
            rw [hc]; simp [upd, h]; push_cast; ring
          · have hc : eligAt 2 (p :: rest) = eligAt 2 rest := by
              simp [eligAt, List.countP_cons, h]
            rw [hc]
            simp only [upd]
            rw [if_neg (by omega), if_neg (by omega)]
        · rw [i5]
          by_cases h : p.level = 3
          · have hc : eligAt 3 (p :: rest) = eligAt 3 rest + 1 := by
              simp [eligAt, List.countP_cons, hs, hm, h]
            rw [hc]; simp [upd, h]; push_cast; ring
          · have hc : eligAt 3 (p :: rest) = eligAt 3 rest := by
              simp [eligAt, List.countP_cons, h]
            rw [hc]
            simp only [upd]
            rw [if_neg (by omega), if_neg (by omega)]
      · have hrw : boostList np (p :: rest) =
            ((boostList np rest).1,
             { p with level := 0, tick := 0 } :: (boostList np rest).2) := by
          simp only [boostList, if_neg hb1, if_neg hb2]
        obtain ⟨i1, i2, i3, i4, i5⟩ := ih np
        rw [hrw]
        have hno : ¬ (p.state = RUNNABLE ∧ p.monopolize = 0 ∧ p.level < 4) := by
          rintro ⟨h1, h2, h3⟩
          rcases (show p.level = 0 ∨ p.level = 1 ∨ p.level = 2 ∨ p.level = 3 by
            omega) with h | h | h | h
          · exact hb1 ⟨h1, h, h2⟩
          · exact hb2 ⟨h1, Or.inl h, h2⟩
          · exact hb2 ⟨h1, Or.inr (Or.inl h), h2⟩
          · exact hb2 ⟨h1, Or.inr (Or.inr h), h2⟩
        have hn1 : ¬ (p.state = RUNNABLE ∧ p.level = 1 ∧ p.monopolize = 0) := by
          rintro ⟨h1, h2, h3⟩
          exact hb2 ⟨h1, Or.inl h2, h3⟩
        have hn2 : ¬ (p.state = RUNNABLE ∧ p.level = 2 ∧ p.monopolize = 0) := by
          rintro ⟨h1, h2, h3⟩
          exact hb2 ⟨h1, Or.inr (Or.inl h2), h3⟩
        have hn3 : ¬ (p.state = RUNNABLE ∧ p.level = 3 ∧ p.monopolize = 0) := by
          rintro ⟨h1, h2, h3⟩
          exact hb2 ⟨h1, Or.inr (Or.inr h2), h3⟩
        have hc0 : eligReadyLe3 (p :: rest) = eligReadyLe3 rest := by
          simp [eligReadyLe3, List.countP_cons, hno]
        have hc1 : eligAt 1 (p :: rest) = eligAt 1 rest := by
          simp [eligAt, List.countP_cons, hn1]
        have hc2 : eligAt 2 (p :: rest) = eligAt 2 rest := by
          simp [eligAt, List.countP_cons, hn2]
        have hc3 : eligAt 3 (p :: rest) = eligAt 3 rest := by
          simp [eligAt, List.countP_cons, hn3]
        exact ⟨by simp [i1], by rw [i2, hc0], by rw [i3, hc1],
          by rw [i4, hc2], by rw [i5, hc3]⟩

/-- Claim C1 (exhibit): starting from a state satisfying the
eligible-count invariant, with one process SLEEPING on channel 7 at
level 0, `wakeup(7)` makes that process RUNNABLE but leaves
`numProc[0]` at 0, so the invariant is broken: `wakeup1` (like `fork`
and `kill`) changes eligibility without updating the count table. -/
theorem c1_wakeup_breaks_count_invariant :
    countInv c1Table ∧ ¬ countInv (wakeup 7 c1Table) := by
  decide

/-- Claim C2: on a timer interrupt on the tick-keeper CPU that does not
bring the global tick counter to 100, with the current process `p`
RUNNING: the table slot of `p` is replaced by `agingStep p`, and
`agingStep` behaves as specified — a monopolized process only has its
tick reset to 0; otherwise the tick counter is incremented and, exactly
when it reaches the quantum `2*level+2`, it is reset to 0, a level-0
process moves to level 1 (odd pid) or level 2 (even pid), a level-1 or
level-2 process moves to level 3, and a level-3 process stays at level
3 with its priority decremented when nonzero and never below 0. -/
theorem c2_timer_aging (ticks tc i : Nat) (t : PTable) (p : Proc)
    (h100 : ticks + 1 ≠ 100)
    (hget : t.procs.get? i = some p)
    (hrun : p.state = RUNNING)
    (hlev : p.level < 4) :
    (trap_timer ticks tc t (some i)).1 = ticks + 1 ∧
    (trap_timer ticks tc t (some i)).2.procs.get? i = some (agingStep p) ∧
    (p.monopolize = 1 → agingStep p = { p with tick := 0 }) ∧
    (p.monopolize = 0 →
      (p.tick + 1 < 2 * p.level + 2 → agingStep p = { p with tick := p.tick + 1 }) ∧
      (p.tick + 1 = 2 * p.level + 2 →
        (agingStep p).tick = 0 ∧
        (p.level = 0 → p.pid % 2 = 1 → (agingStep p).level = 1) ∧
        (p.level = 0 → p.pid % 2 = 0 → (agingStep p).level = 2) ∧
        (p.level = 1 ∨ p.level = 2 → (agingStep p).level = 3) ∧
        (p.level = 3 → (agingStep p).level = 3 ∧
          (agingStep p).priority =
            (if p.priority = 0 then p.priority else p.priority - 1) ∧
          (0 ≤ p.priority → 0 ≤ (agingStep p).priority)))) := by
  have hw : wakeupStep tc p = p :=
    wakeupStep_of_not_sleeping tc p (by simp [hrun])
  have hslot : (trap_timer ticks tc t (some i)).2.procs.get? i = some (agingStep p) := by
    simp only [trap_timer, if_neg h100]
    rw [modifyAt_get?_self]
    simp only [wakeup, wakeup1, List.get?_map, hget, Option.map_some']
    rw [hw]
  refine ⟨by simp only [trap_timer, if_neg h100], hslot, ?_, ?_⟩
  · intro hm
    unfold agingStep
    rw [if_pos hrun, if_pos hm]
  · intro hm
    have hmne : ¬ p.monopolize = 1 := by omega
    constructor
    · intro hlt
      unfold agingStep
      rw [if_pos hrun, if_neg hmne,
        if_neg (show ¬ (2 * p.level + 2 ≤ p.tick + 1) by omega)]
    · intro heq
      have hq : 2 * p.level + 2 ≤ p.tick + 1 := by omega
      refine ⟨?_, ?_, ?_, ?_, ?_⟩
      · unfold agingStep
        rw [if_pos hrun, if_neg hmne, if_pos hq]
        by_cases h0 : p.level = 0
        · rw [if_pos h0]
          split <;> rfl
        · rw [if_neg h0]
          by_cases h12 : p.level = 1 ∨ p.level = 2
          · rw [if_pos h12]
          · rw [if_neg h12, if_pos (show p.level = 3 by omega)]
      · intro h0 hodd
        unfold agingStep
        rw [if_pos hrun, if_neg hmne, if_pos hq, if_pos h0, if_pos hodd]
      · intro h0 heven
        unfold agingStep
        rw [if_pos hrun, if_neg hmne, if_pos hq, if_pos h0,
          if_neg (show ¬ p.pid % 2 = 1 by omega)]
      · intro h12
        unfold agingStep
        rw [if_pos hrun, if_neg hmne, if_pos hq,
          if_neg (show ¬ p.level = 0 by omega), if_pos h12]
      · intro h3
        unfold agingStep
        rw [if_pos hrun, if_neg hmne, if_pos hq,
          if_neg (show ¬ p.level = 0 by omega),
          if_neg (show ¬ (p.level = 1 ∨ p.level = 2) by omega), if_pos h3]
        refine ⟨h3, ?_, ?_⟩
        · show (if p.priority ≠ 0 then p.priority - 1 else p.priority) =
            (if p.priority = 0 then p.priority else p.priority - 1)
          by_cases hz : p.priority = 0
          · rw [if_neg (by omega), if_pos hz]
          · rw [if_pos hz, if_neg hz]
        · intro hpr
          show 0 ≤ (if p.priority ≠ 0 then p.priority - 1 else p.priority)
          by_cases hz : p.priority = 0
          · rw [if_neg (by omega)]; omega
          · rw [if_pos hz]; omega

/-- Witness for C2 at a concrete input: a RUNNING level-0 process with
tick 1 and even pid 2, on a tick that does not hit 100. -/
theorem c2_timer_aging_witness :
    (trap_timer 5 9 c2T (some 0)).2.procs.get? 0 = some (agingStep c2P) :=
  (c2_timer_aging 5 9 0 c2T c2P (by decide) (by decide) (by decide) (by decide)).2.1

/-- `eligReadyLe3` collapses to `eligReady` when every level is 0..3. -/
theorem eligReadyLe3_eq_eligReady (l : List Proc) (h : ∀ p ∈ l, p.level < 4) :
    eligReadyLe3 l = eligReady l := by
  induction l with
  | nil => rfl
  | cons p rest ih =>
    have hp : p.level < 4 := h p (List.mem_cons_self p rest)
    have hr : eligReadyLe3 rest = eligReady rest :=
      ih (fun q hq => h q (List.mem_cons_of_mem p hq))
    simp only [eligReadyLe3, eligReady, List.countP_cons] at hr ⊢
    rw [hr]
    congr 1
    simp [hp]

/-- Claim C3: when the global tick counter reaches 100, the handler
resets it to 0 and runs `priority_boosting` instead of per-process
aging; afterwards every process has level 0 and tick 0 regardless of
its prior level and tick, every priority is unchanged, `numProc[0]` is
recomputed to the number of RUNNABLE non-monopolized processes, and
`numProc[L]` for `L = 1,2,3` is decremented once for each boosted
RUNNABLE non-monopolized process at level `L`. -/
theorem c3_priority_boost (ticks tc : Nat) (t : PTable) (cur : Option Nat)
    (h100 : ticks + 1 = 100)
    (hlvl : ∀ p ∈ t.procs, p.level < 4) :
    trap_timer ticks tc t cur = (0, priority_boosting (wakeup tc t)) ∧
    (∀ q ∈ (priority_boosting (wakeup tc t)).procs, q.level = 0 ∧ q.tick = 0) ∧
    (priority_boosting (wakeup tc t)).procs.map Proc.priority =
      t.procs.map Proc.priority ∧
    (priority_boosting (wakeup tc t)).numProc 0 =
      (eligReady (wakeup tc t).procs : Int) ∧
    (priority_boosting (wakeup tc t)).numProc 1 =
      t.numProc 1 - (eligAt 1 (wakeup tc t).procs : Int) ∧
    (priority_boosting (wakeup tc t)).numProc 2 =
      t.numProc 2 - (eligAt 2 (wakeup tc t).procs : Int) ∧
    (priority_boosting (wakeup tc t)).numProc 3 =
      t.numProc 3 - (eligAt 3 (wakeup tc t).procs : Int) := by
  obtain ⟨b1, b2, b3, b4, b5⟩ :=
    boostList_spec (wakeup tc t).procs (upd t.numProc 0 0)
  have hproc : (priority_boosting (wakeup tc t)).procs =
      (wakeup tc t).procs.map (fun p => { p with level := 0, tick := 0 }) := b1
  have hnp : (priority_boosting (wakeup tc t)).numProc =
      (boostList (upd t.numProc 0 0) (wakeup tc t).procs).1 := rfl
  refine ⟨?_, ?_, ?_, ?_, ?_, ?_, ?_⟩
  · simp only [trap_timer]
    rw [if_pos h100]
  · intro q hq
    rw [hproc] at hq
    obtain ⟨p, hp, rfl⟩ := List.mem_map.mp hq
    exact ⟨rfl, rfl⟩
  · rw [hproc]
    show ((wakeup1 tc t.procs).map fun p => { p with level := 0, tick := 0 }).map
      Proc.priority = t.procs.map Proc.priority
    rw [List.map_map]
    have hcomp : (Proc.priority ∘ fun p : Proc => { p with level := 0, tick := 0 })
        = Proc.priority := funext fun p => rfl
    rw [hcomp, wakeup1_map_priority]
  · rw [hnp, b2]
    have hw : ∀ p ∈ (wakeup tc t).procs, p.level < 4 := wakeup1_level_lt tc t.procs hlvl
    rw [eligReadyLe3_eq_eligReady _ hw]
    simp [upd]
  · rw [hnp, b3]
    simp [upd]
  · rw [hnp, b4]
    simp [upd]
  · rw [hnp, b5]
    simp [upd]

/-- Witness for C3 at a concrete input: tick counter at 99, a table
with a RUNNABLE level-2 process and a sleeper on the tick channel. -/
theorem c3_priority_boost_witness :
    trap_timer 99 4 c3T none = (0, priority_boosting (wakeup 4 c3T)) :=
  (c3_priority_boost 99 4 c3T none (by decide) (by decide)).1

/-- Claim C4 (exhibit): the exclusive dispatch routine faults instead
of performing the claimed cycle.  The scheduler's guard chain does
select the exclusive branch for a RUNNABLE monopolized process (`c4P`),
but `monopolize` zeroes the CPU's current-process pointer and then
dereferences `myproc()` — the pointer it just zeroed — so for every
entry pointer value, count table and hand-off it evaluates to the
fault `none`: no RUNNING publish, no hand-off, no pointer clearing, no
`unmonopolize` call happens.  Moreover `unmonopolize` itself (the
intended restore-to-ordinary-scheduling, also reachable as a system
call from a non-null current process) never clears the monopolize
flag. -/
theorem c4_monopolize_null_deref (c0 : Option Proc) (np : Nat → Int)
    (run : Proc → Proc) (p : Proc) :
    schedBranch c4NP c4P = SchedBranch.exclusive ∧
    monopolize c0 np run = none ∧
    (unmonopolize p np).1.monopolize = p.monopolize := by
  refine ⟨by decide, rfl, ?_⟩
  unfold unmonopolize
  split <;> rfl

/-- `prioGE` is reflexive. -/
theorem prioGE_refl (a : Proc) : prioGE a a :=
  Or.inr ⟨rfl, Nat.le_refl _⟩

/-- `prioGE` is transitive. -/
theorem prioGE_trans {a b c : Proc} (h1 : prioGE a b) (h2 : prioGE b c) :
    prioGE a c := by
  unfold prioGE at h1 h2 ⊢
  rcases h1 with h1 | ⟨h1, h1p⟩ <;> rcases h2 with h2 | ⟨h2, h2p⟩
  · exact Or.inl (by omega)
  · exact Or.inl (by omega)
  · exact Or.inl (by omega)
  · exact Or.inr ⟨by omega, by omega⟩

/-- `pickStep` returns either the running best or an eligible candidate. -/
theorem pickStep_cases (b c : Nat × Proc) :
    pickStep b c = b ∨
      (pickStep b c = c ∧ c.2.state = RUNNABLE ∧ c.2.level = 3) := by
  unfold pickStep
  split_ifs with h1 h2
  · exact Or.inr ⟨rfl, h1.1, h1.2.1⟩
  · exact Or.inr ⟨rfl, h2.1, h2.2.1⟩
  · exact Or.inl rfl

/-- `pickStep` never goes down in the selection order. -/
theorem pickStep_ge_init (b c : Nat × Proc) : prioGE (pickStep b c).2 b.2 := by
  unfold pickStep
  split_ifs with h1 h2
  · exact Or.inl h1.2.2
  · exact Or.inr ⟨h2.2.2.1, Nat.le_of_lt h2.2.2.2⟩
  · exact prioGE_refl _

/-- After `pickStep`, the running best is at least the candidate when
the candidate is RUNNABLE at level 3. -/
theorem pickStep_ge_cand (b c : Nat × Proc) (hs : c.2.state = RUNNABLE)
    (hl : c.2.level = 3) : prioGE (pickStep b c).2 c.2 := by
  unfold pickStep
  split_ifs with h1 h2
  · exact prioGE_refl _
  · exact prioGE_refl _
  · have k1 : ¬ b.2.priority < c.2.priority := fun hh => h1 ⟨hs, hl, hh⟩
    by_cases hpq : c.2.priority = b.2.priority
    · have k2 : ¬ c.2.pid < b.2.pid := fun hh => h2 ⟨hs, hl, hpq, hh⟩
      exact Or.inr ⟨hpq.symm, by omega⟩
    · exact Or.inl (by omega)

/-- The selection fold never goes below its start in the order. -/
theorem foldl_pickStep_ge_init (xs : List (Nat × Proc)) :
    ∀ z, prioGE (xs.foldl pickStep z).2 z.2 := by
  induction xs with
  | nil => intro z; exact prioGE_refl _
  | cons x xs ih =>
    intro z
    exact prioGE_trans (ih (pickStep z x)) (pickStep_ge_init z x)

/-- The selection fold dominates every RUNNABLE level-3 entry of the
scanned list. -/
theorem foldl_pickStep_ge (xs : List (Nat × Proc)) :
    ∀ z c, c ∈ xs → c.2.state = RUNNABLE → c.2.level = 3 →
      prioGE (xs.foldl pickStep z).2 c.2 := by
  induction xs with
  | nil =>
    intro z c hc
    exact absurd hc (List.not_mem_nil c)
  | cons x xs ih =>
    intro z c hc hs hl
    rcases List.mem_cons.mp hc with rfl | hc2
    · rw [List.foldl_cons]
      exact prioGE_trans (foldl_pickStep_ge_init xs (pickStep z c))
        (pickStep_ge_cand z c hs hl)
    · rw [List.foldl_cons]
      exact ih (pickStep z x) c hc2 hs hl

/-- The selection fold returns its start or an eligible list entry. -/
theorem foldl_pickStep_mem (xs : List (Nat × Proc)) :
    ∀ z, xs.foldl pickStep z = z ∨
      (xs.foldl pickStep z ∈ xs ∧ (xs.foldl pickStep z).2.state = RUNNABLE ∧
        (xs.foldl pickStep z).2.level = 3) := by
  induction xs with
  | nil => intro z; exact Or.inl rfl
  | cons x xs ih =>
    intro z
    rw [List.foldl_cons]
    rcases ih (pickStep z x) with h | ⟨hm, he⟩
    · rcases pickStep_cases z x with h2 | ⟨h2, he2⟩
      · exact Or.inl (by rw [h, h2])
      · right
        refine ⟨?_, ?_⟩
        · rw [h, h2]; exact List.mem_cons_self x xs
        · rw [h, h2]; exact he2
    · exact Or.inr ⟨List.mem_cons_of_mem x hm, he⟩

/-- An entry of `enumFrom i l` indexes back into `l`. -/
theorem enumFrom_get? (l : List Proc) :
    ∀ i j a, (j, a) ∈ enumFrom i l → i ≤ j ∧ l.get? (j - i) = some a := by
  induction l with
  | nil =>
    intro i j a h
    exact absurd h (List.not_mem_nil _)
  | cons x xs ih =>
    intro i j a h
    rcases List.mem_cons.mp h with h1 | h1
    · obtain ⟨rfl, rfl⟩ : j = i ∧ a = x := by
        exact ⟨congrArg Prod.fst h1, congrArg Prod.snd h1⟩
      refine ⟨Nat.le_refl _, ?_⟩
      rw [Nat.sub_self]
      rfl
    · obtain ⟨hle, hget⟩ := ih (i + 1) j a h1
      refine ⟨by omega, ?_⟩
      rw [show j - i = (j - (i + 1)) + 1 by omega]
      rw [List.get?_cons_succ]
      exact hget

/-- Every list element appears in `enumFrom`. -/
theorem mem_enumFrom (l : List Proc) :
    ∀ i a, a ∈ l → ∃ j, (j, a) ∈ enumFrom i l := by
  induction l with
  | nil =>
    intro i a h
    exact absurd h (List.not_mem_nil _)
  | cons x xs ih =>
    intro i a h
    rcases List.mem_cons.mp h with rfl | h1
    · exact ⟨i, List.mem_cons_self _ _⟩
    · obtain ⟨j, hj⟩ := ih (i + 1) a h1
      exact ⟨j, List.mem_cons_of_mem _ hj⟩

/-- Claim C5: when the scheduler reaches the level-3 branch for a
RUNNABLE non-monopolized scanned process while no RUNNABLE
non-monopolized process exists at levels 0-2 (levels being 0..3), the
guard chain indeed selects the level-3 branch, and the branch selects a
RUNNABLE level-3 process of strictly greatest priority (ties broken by
smallest pid) among all RUNNABLE level-3 processes, marks it RUNNING in
its slot, and decrements `numProc[3]`. -/
theorem c5_level3_selection (t : PTable) (bi : Nat) (b : Proc)
    (hget : t.procs.get? bi = some b)
    (hst : b.state = RUNNABLE)
    (hmono : b.monopolize = 0)
    (h0 : eligAt 0 t.procs = 0)
    (h1 : eligAt 1 t.procs = 0)
    (h2 : eligAt 2 t.procs = 0)
    (hlvl : ∀ q ∈ t.procs, q.level < 4) :
    schedBranch t.numProc b = SchedBranch.l3 ∧
    t.procs.get? (schedPickL3 t.procs bi b).1 = some (schedPickL3 t.procs bi b).2 ∧
    (schedPickL3 t.procs bi b).2.state = RUNNABLE ∧
    (schedPickL3 t.procs bi b).2.level = 3 ∧
    (∀ q ∈ t.procs, q.state = RUNNABLE → q.level = 3 →
      q.priority < (schedPickL3 t.procs bi b).2.priority ∨
        ((schedPickL3 t.procs bi b).2.priority = q.priority ∧
          (schedPickL3 t.procs bi b).2.pid ≤ q.pid)) ∧
    (schedDispatchL3 t bi b).1.procs.get? (schedPickL3 t.procs bi b).1 =
      some { (schedPickL3 t.procs bi b).2 with state := RUNNING } ∧
    (schedDispatchL3 t bi b).1.numProc 3 = t.numProc 3 - 1 := by
  have hbmem : b ∈ t.procs := List.get?_mem hget
  have hb4 : b.level < 4 := hlvl b hbmem
  have hnotL : ∀ L, eligAt L t.procs = 0 → ¬ b.level = L := by
    intro L hL hbL
    have := (List.countP_eq_zero.mp hL) b hbmem
    simp only [decide_eq_true_eq] at this
    exact this ⟨hst, hbL, hmono⟩
  have hb3 : b.level = 3 := by
    have n0 := hnotL 0 h0
    have n1 := hnotL 1 h1
    have n2 := hnotL 2 h2
    omega
  have hpick := foldl_pickStep_mem (enumFrom 0 t.procs) (bi, b)
  have hr : t.procs.get? (schedPickL3 t.procs bi b).1 =
        some (schedPickL3 t.procs bi b).2 ∧
      (schedPickL3 t.procs bi b).2.state = RUNNABLE ∧
      (schedPickL3 t.procs bi b).2.level = 3 := by
    unfold schedPickL3
    rcases hpick with h | ⟨hm, hs, hl⟩
    · rw [h]
      exact ⟨hget, hst, hb3⟩
    · refine ⟨?_, hs, hl⟩
      have := enumFrom_get? t.procs 0
        ((enumFrom 0 t.procs).foldl pickStep (bi, b)).1
        ((enumFrom 0 t.procs).foldl pickStep (bi, b)).2 (by
          simpa using hm)
      simpa using this.2
  refine ⟨?_, hr.1, hr.2.1, hr.2.2, ?_, ?_, ?_⟩
  · unfold schedBranch
    rw [if_neg (by simp [hst]), if_neg (by omega),
      if_neg (by rintro ⟨-, hbl, -⟩; omega),
      if_neg (by rintro ⟨-, -, hbl, -⟩; omega),
      if_neg (by rintro ⟨-, -, -, hbl, -⟩; omega)]
  · intro q hq hqs hql
    obtain ⟨j, hj⟩ := mem_enumFrom t.procs 0 q hq
    have := foldl_pickStep_ge (enumFrom 0 t.procs) (bi, b) (j, q) hj hqs hql
    unfold schedPickL3
    exact this
  · unfold schedDispatchL3
    show (modifyAt t.procs (schedPickL3 t.procs bi b).1
      (fun q => { q with state := RUNNING })).get? (schedPickL3 t.procs bi b).1 = _
    rw [modifyAt_get?_self, hr.1]
    rfl
  · unfold schedDispatchL3
    show upd t.numProc 3 (t.numProc 3 - 1) 3 = t.numProc 3 - 1
    simp [upd]

/-- Witness for C5 at a concrete input: two RUNNABLE level-3 processes
with equal priority 5 and pids 7 and 4; the dispatch decrements
`numProc[3]`. -/
theorem c5_level3_selection_witness :
    (schedDispatchL3 c5T 0 c5p0).1.numProc 3 = c5T.numProc 3 - 1 :=
  (c5_level3_selection c5T 0 c5p0 (by decide) (by decide) (by decide) (by decide)
    (by decide) (by decide) (by decide)).2.2.2.2.2.2

/-- `setmonoLoop` on a list with no matching pid: sentinel -1, nothing
changed. -/
theorem setmonoLoop_not_found (pid : Nat) (pw : Int) (np : Nat → Int)
    (l : List Proc) (h : ∀ q ∈ l, q.pid ≠ pid) :
    setmonoLoop pid pw np l = (l, np, -1) := by
  induction l with
  | nil => rfl
  | cons p rest ih =>
    have hp : p.pid ≠ pid := h p (List.mem_cons_self p rest)
    have hr := ih (fun q hq => h q (List.mem_cons_of_mem p hq))
    unfold setmonoLoop
    rw [if_neg hp, hr]

/-- `setmonoLoop` with the wrong password: sentinel -2, nothing
changed. -/
theorem setmonoLoop_wrongpw (pid : Nat) (pw : Int) (np : Nat → Int)
    (l1 : List Proc) (p : Proc) (l2 : List Proc)
    (hfirst : ∀ q ∈ l1, q.pid ≠ pid) (hp : p.pid = pid)
    (hpw : pw ≠ 2021057301) :
    setmonoLoop pid pw np (l1 ++ p :: l2) = (l1 ++ p :: l2, np, -2) := by
  induction l1 with
  | nil =>
    rw [List.nil_append]
    unfold setmonoLoop
    rw [if_pos hp, if_neg hpw]
  | cons x l1 ih =>
    have hx : x.pid ≠ pid := hfirst x (List.mem_cons_self x l1)
    have hr := ih (fun q hq => hfirst q (List.mem_cons_of_mem x hq))
    show setmonoLoop pid pw np (x :: (l1 ++ p :: l2)) = _
    unfold setmonoLoop
    rw [if_neg hx, hr]
    rfl

/-- `setmonoLoop` on an already monopolized target: sentinel -3,
nothing changed. -/
theorem setmonoLoop_already (pid : Nat) (pw : Int) (np : Nat → Int)
    (l1 : List Proc) (p : Proc) (l2 : List Proc)
    (hfirst : ∀ q ∈ l1, q.pid ≠ pid) (hp : p.pid = pid)
    (hpw : pw = 2021057301) (hm : p.monopolize ≠ 0) :
    setmonoLoop pid pw np (l1 ++ p :: l2) = (l1 ++ p :: l2, np, -3) := by
  induction l1 with
  | nil =>
    rw [List.nil_append]
    unfold setmonoLoop
    rw [if_pos hp, if_pos hpw, if_neg hm]
  | cons x l1 ih =>
    have hx : x.pid ≠ pid := hfirst x (List.mem_cons_self x l1)
    have hr := ih (fun q hq => hfirst q (List.mem_cons_of_mem x hq))
    show setmonoLoop pid pw np (x :: (l1 ++ p :: l2)) = _
    unfold setmonoLoop
    rw [if_neg hx, hr]
    rfl

/-- `setmonoLoop` in the success case: the first matching process gets
its monopolize flag set, one count moves from its level to
`numProc[4]`, and the new `numProc[4]` is returned. -/
theorem setmonoLoop_success (pid : Nat) (pw : Int) (np : Nat → Int)
    (l1 : List Proc) (p : Proc) (l2 : List Proc)
    (hfirst : ∀ q ∈ l1, q.pid ≠ pid) (hp : p.pid = pid)
    (hpw : pw = 2021057301) (hm : p.monopolize = 0) :
    setmonoLoop pid pw np (l1 ++ p :: l2) =
      (l1 ++ { p with monopolize := 1 } :: l2,
       upd (upd np p.level (np p.level - 1)) 4
         ((upd np p.level (np p.level - 1)) 4 + 1),
       (upd (upd np p.level (np p.level - 1)) 4
         ((upd np p.level (np p.level - 1)) 4 + 1)) 4) := by
  induction l1 with
  | nil =>
    rw [List.nil_append]
    unfold setmonoLoop
    rw [if_pos hp, if_pos hpw, if_pos hm]
    rfl
  | cons x l1 ih =>
    have hx : x.pid ≠ pid := hfirst x (List.mem_cons_self x l1)
    have hr := ih (fun q hq => hfirst q (List.mem_cons_of_mem x hq))
    show setmonoLoop pid pw np (x :: (l1 ++ p :: l2)) = _
    unfold setmonoLoop
    rw [if_neg hx, hr]
    rfl

/-- Setting the monopolize flag of one slot raises `monoCount` by 1. -/
theorem monoCount_append_set (l1 l2 : List Proc) (p : Proc)
    (hm : p.monopolize = 0) :
    monoCount (l1 ++ { p with monopolize := 1 } :: l2) =
      monoCount (l1 ++ p :: l2) + 1 := by
  simp [monoCount, List.countP_append, List.countP_cons, hm]
  omega

/-- Claim C6: `setmonopoly` returns the four distinct negative
sentinels -4 (self-target), -1 (no such pid), -2 (wrong secret) and -3
(already monopolized), leaving the table and counts unchanged in every
failure case; on success it sets the target's monopolize flag, moves
one eligibility count from the target's level into the monopolized
slot `numProc[4]`, and returns the new `numProc[4]` — which equals the
number of monopolized processes whenever `numProc[4]` was correct
before the call. -/
theorem c6_setmonopoly (curpid pid : Nat) (pw : Int) (t : PTable) :
    (pid = curpid → setmonopoly curpid t pid pw = (t, -4)) ∧
    (pid ≠ curpid → (∀ q ∈ t.procs, q.pid ≠ pid) →
      setmonopoly curpid t pid pw = (t, -1)) ∧
    (∀ l1 p l2, pid ≠ curpid → t.procs = l1 ++ p :: l2 →
      (∀ q ∈ l1, q.pid ≠ pid) → p.pid = pid →
      (pw ≠ 2021057301 → setmonopoly curpid t pid pw = (t, -2)) ∧
      (pw = 2021057301 → p.monopolize ≠ 0 →
        setmonopoly curpid t pid pw = (t, -3)) ∧
      (pw = 2021057301 → p.monopolize = 0 → p.level < 4 →
        (setmonopoly curpid t pid pw).1.procs =
          l1 ++ { p with monopolize := 1 } :: l2 ∧
        (setmonopoly curpid t pid pw).1.numProc p.level =
          t.numProc p.level - 1 ∧
        (setmonopoly curpid t pid pw).1.numProc 4 = t.numProc 4 + 1 ∧
        (setmonopoly curpid t pid pw).2 = t.numProc 4 + 1 ∧
        (t.numProc 4 = (monoCount t.procs : Int) →
          (setmonopoly curpid t pid pw).2 =
            (monoCount (setmonopoly curpid t pid pw).1.procs : Int)))) := by
  refine ⟨?_, ?_, ?_⟩
  · intro h
    unfold setmonopoly
    rw [if_pos h]
  · intro hne hnp
    unfold setmonopoly
    rw [if_neg hne, setmonoLoop_not_found pid pw t.numProc t.procs hnp]
  · intro l1 p l2 hne hsplit hfirst hp
    refine ⟨?_, ?_, ?_⟩
    · intro hpw
      unfold setmonopoly
      rw [if_neg hne, hsplit,
        setmonoLoop_wrongpw pid pw t.numProc l1 p l2 hfirst hp hpw, ← hsplit]
    · intro hpw hm
      unfold setmonopoly
      rw [if_neg hne, hsplit,
        setmonoLoop_already pid pw t.numProc l1 p l2 hfirst hp hpw hm, ← hsplit]
    · intro hpw hm hl4
      have hres : setmonopoly curpid t pid pw =
          ({ procs := l1 ++ { p with monopolize := 1 } :: l2,
             numProc := upd (upd t.numProc p.level (t.numProc p.level - 1)) 4
               ((upd t.numProc p.level (t.numProc p.level - 1)) 4 + 1) },
           (upd (upd t.numProc p.level (t.numProc p.level - 1)) 4
             ((upd t.numProc p.level (t.numProc p.level - 1)) 4 + 1)) 4) := by
        unfold setmonopoly
        rw [if_neg hne, hsplit,
          setmonoLoop_success pid pw t.numProc l1 p l2 hfirst hp hpw hm]
      have h4ne : ¬ (4 : Nat) = p.level := by omega
      have hat4 : (upd t.numProc p.level (t.numProc p.level - 1)) 4 =
          t.numProc 4 := by
        simp only [upd]
        rw [if_neg h4ne]
      rw [hres]
      refine ⟨rfl, ?_, ?_, ?_, ?_⟩
      · show (upd (upd t.numProc p.level (t.numProc p.level - 1)) 4
          ((upd t.numProc p.level (t.numProc p.level - 1)) 4 + 1)) p.level =
          t.numProc p.level - 1
        simp only [upd]
        rw [if_neg (show ¬ p.level = 4 by omega)]
        simp
      · show (upd (upd t.numProc p.level (t.numProc p.level - 1)) 4
          ((upd t.numProc p.level (t.numProc p.level - 1)) 4 + 1)) 4 =
          t.numProc 4 + 1
        simp [upd, h4ne]
      · show (upd (upd t.numProc p.level (t.numProc p.level - 1)) 4
          ((upd t.numProc p.level (t.numProc p.level - 1)) 4 + 1)) 4 =
          t.numProc 4 + 1
        simp [upd, h4ne]
      · intro hinv
        show (upd (upd t.numProc p.level (t.numProc p.level - 1)) 4
          ((upd t.numProc p.level (t.numProc p.level - 1)) 4 + 1)) 4 =
          (monoCount (l1 ++ { p with monopolize := 1 } :: l2) : Int)
        have hmc : monoCount (l1 ++ { p with monopolize := 1 } :: l2) =
            monoCount t.procs + 1 := by
          rw [hsplit]
          exact monoCount_append_set l1 l2 p hm
        rw [hmc]
        simp [upd, h4ne]
        exact hinv

/-- Witness for C6 at a concrete input: caller pid 1 monopolizes pid 2
with the correct secret; the call returns the new `numProc[4]`. -/
theorem c6_setmonopoly_witness :
    (setmonopoly 1 c6T 2 2021057301).2 = c6T.numProc 4 + 1 :=
  (((c6_setmonopoly 1 2 2021057301 c6T).2.2 [c6A] c6B []
    (by decide) rfl (by decide) rfl).2.2 rfl rfl (by decide)).2.2.2.1

/-- The conditional decrement never produces a negative count from a
non-negative one. -/
theorem kfree_rc_nonneg (k : Kmem) (i : Nat) (h : 0 ≤ k.ref_cnt i) :
    0 ≤ kfree_rc k i := by
  unfold kfree_rc
  split <;> omega

/-- `kfree_rc` at a zero count: the decrement is skipped. -/
theorem kfree_rc_of_zero (k : Kmem) (i : Nat) (h : k.ref_cnt i = 0) :
    kfree_rc k i = 0 := by
  unfold kfree_rc
  rw [if_neg (by omega)]
  exact h

/-- `kfree_rc` at a positive count decrements. -/
theorem kfree_rc_of_pos (k : Kmem) (i : Nat) (h : 0 < k.ref_cnt i) :
    kfree_rc k i = k.ref_cnt i - 1 := by
  unfold kfree_rc
  rw [if_pos h]

/-- `kfree` on a valid address whose count does not reach 0: only the
count changes. -/
theorem kfree_eq_keep (e v : Nat) (k : Kmem)
    (hal : v % PGSIZE = 0) (hlo : e ≤ v) (hhi : V2P v < PHYSTOP)
    (hne : ¬ kfree_rc k (V2P v / PGSIZE) = 0) :
    kfree e k v =
      some { k with ref_cnt := upd k.ref_cnt (V2P v / PGSIZE)
                                 (kfree_rc k (V2P v / PGSIZE)) } := by
  unfold kfree
  rw [if_neg (by push_neg; exact ⟨hal, hlo, hhi⟩), if_neg hne]

/-- `kfree` on a valid address whose count reaches 0: the page is
junk-filled and recycled onto the free list. -/
theorem kfree_eq_recycle (e v : Nat) (k : Kmem)
    (hal : v % PGSIZE = 0) (hlo : e ≤ v) (hhi : V2P v < PHYSTOP)
    (hz : kfree_rc k (V2P v / PGSIZE) = 0) :
    kfree e k v =
      some { ref_cnt := upd k.ref_cnt (V2P v / PGSIZE)
                          (kfree_rc k (V2P v / PGSIZE)),
             freelist := v :: k.freelist,
             num_freePage := k.num_freePage + 1,
             junk := upd k.junk v true } := by
  unfold kfree
  rw [if_neg (by push_neg; exact ⟨hal, hlo, hhi⟩), if_pos hz]

/-- `kfree` panics on a misaligned, below-end or out-of-range address. -/
theorem kfree_eq_panic (e v : Nat) (k : Kmem)
    (h : v % PGSIZE ≠ 0 ∨ v < e ∨ PHYSTOP ≤ V2P v) :
    kfree e k v = none := by
  unfold kfree
  rw [if_pos h]

/-- One `kfree` on a frame with count above 1: the count drops by one,
nothing is recycled. -/
theorem kfree_step_keep (e v : Nat) (k : Kmem) (n : Int)
    (hal : v % PGSIZE = 0) (hlo : e ≤ v) (hhi : V2P v < PHYSTOP)
    (hn : k.ref_cnt (V2P v / PGSIZE) = n) (hgt : 1 < n) :
    ∃ k2, kfree e k v = some k2 ∧
      k2.ref_cnt (V2P v / PGSIZE) = n - 1 ∧
      k2.freelist = k.freelist ∧ k2.num_freePage = k.num_freePage ∧
      k2.junk = k.junk := by
  have hpos : 0 < k.ref_cnt (V2P v / PGSIZE) := by omega
  have hrc : kfree_rc k (V2P v / PGSIZE) = n - 1 := by
    rw [kfree_rc_of_pos k _ hpos, hn]
  refine ⟨_, kfree_eq_keep e v k hal hlo hhi (by omega), ?_, rfl, rfl, rfl⟩
  simp [upd, hrc]

/-- One `kfree` on a frame with count 1: the count reaches 0 and the
frame is recycled. -/
theorem kfree_step_recycle (e v : Nat) (k : Kmem)
    (hal : v % PGSIZE = 0) (hlo : e ≤ v) (hhi : V2P v < PHYSTOP)
    (h1 : k.ref_cnt (V2P v / PGSIZE) = 1) :
    ∃ k2, kfree e k v = some k2 ∧
      k2.ref_cnt (V2P v / PGSIZE) = 0 ∧
      k2.freelist = v :: k.freelist ∧
      k2.num_freePage = k.num_freePage + 1 ∧
      k2.junk v = true := by
  have hrc : kfree_rc k (V2P v / PGSIZE) = 0 := by
    rw [kfree_rc_of_pos k _ (by omega), h1]
    ring
  refine ⟨_, kfree_eq_recycle e v k hal hlo hhi hrc, ?_, rfl, rfl, ?_⟩
  · simp [upd, hrc]
  · simp [upd]

/-- Claim C7: from a frame freshly allocated at address `v` (count 1),
three `incr_refc` calls bring the count to 4; four successive `kfree`
calls then leave the free list and free-page counter untouched on the
first three calls and recycle the frame exactly on the fourth: the page
is pushed onto the free list, the free-page counter is incremented, the
count reaches 0 and the page is filled with the debug pattern. -/
theorem c7_refcount_roundtrip (e v : Nat) (k : Kmem)
    (hal : v % PGSIZE = 0) (hlo : e ≤ v) (hhi : V2P v < PHYSTOP)
    (hrc : k.ref_cnt (V2P v / PGSIZE) = 1) :
    (incr3 k (V2P v)).ref_cnt (V2P v / PGSIZE) = 4 ∧
    (kfreeN 1 e (incr3 k (V2P v)) v).map Kmem.freelist = some k.freelist ∧
    (kfreeN 1 e (incr3 k (V2P v)) v).map Kmem.num_freePage =
      some k.num_freePage ∧
    (kfreeN 2 e (incr3 k (V2P v)) v).map Kmem.freelist = some k.freelist ∧
    (kfreeN 2 e (incr3 k (V2P v)) v).map Kmem.num_freePage =
      some k.num_freePage ∧
    (kfreeN 3 e (incr3 k (V2P v)) v).map Kmem.freelist = some k.freelist ∧
    (kfreeN 3 e (incr3 k (V2P v)) v).map Kmem.num_freePage =
      some k.num_freePage ∧
    (kfreeN 4 e (incr3 k (V2P v)) v).map Kmem.freelist =
      some (v :: k.freelist) ∧
    (kfreeN 4 e (incr3 k (V2P v)) v).map Kmem.num_freePage =
      some (k.num_freePage + 1) ∧
    (kfreeN 4 e (incr3 k (V2P v)) v).map
      (fun a => a.ref_cnt (V2P v / PGSIZE)) = some 0 ∧
    (kfreeN 4 e (incr3 k (V2P v)) v).map (fun a => a.junk v) = some true := by
  have hK1 : (incr3 k (V2P v)).ref_cnt (V2P v / PGSIZE) = 4 := by
    simp [incr3, incr_refc, upd, hrc]
  obtain ⟨k2, e2, r2, f2, n2, j2⟩ :=
    kfree_step_keep e v (incr3 k (V2P v)) 4 hal hlo hhi hK1 (by norm_num)
  obtain ⟨k3, e3, r3, f3, n3, j3⟩ :=
    kfree_step_keep e v k2 3 hal hlo hhi (by omega) (by norm_num)
  obtain ⟨k4, e4, r4, f4, n4, j4⟩ :=
    kfree_step_keep e v k3 2 hal hlo hhi (by omega) (by norm_num)
  obtain ⟨k5, e5, r5, f5, n5, j5⟩ :=
    kfree_step_recycle e v k4 hal hlo hhi (by omega)
  have c1 : kfreeN 1 e (incr3 k (V2P v)) v = some k2 := by
    show (kfree e (incr3 k (V2P v)) v).bind (fun a => kfreeN 0 e a v) = some k2
    rw [e2]
    rfl
  have c2 : kfreeN 2 e (incr3 k (V2P v)) v = some k3 := by
    show (kfree e (incr3 k (V2P v)) v).bind (fun a => kfreeN 1 e a v) = some k3
    rw [e2]
    show (kfree e k2 v).bind (fun a => kfreeN 0 e a v) = some k3
    rw [e3]
    rfl
  have c3 : kfreeN 3 e (incr3 k (V2P v)) v = some k4 := by
    show (kfree e (incr3 k (V2P v)) v).bind (fun a => kfreeN 2 e a v) = some k4
    rw [e2]
    show (kfree e k2 v).bind (fun a => kfreeN 1 e a v) = some k4
    rw [e3]
    show (kfree e k3 v).bind (fun a => kfreeN 0 e a v) = some k4
    rw [e4]
    rfl
  have c4 : kfreeN 4 e (incr3 k (V2P v)) v = some k5 := by
    show (kfree e (incr3 k (V2P v)) v).bind (fun a => kfreeN 3 e a v) = some k5
    rw [e2]
    show (kfree e k2 v).bind (fun a => kfreeN 2 e a v) = some k5
    rw [e3]
    show (kfree e k3 v).bind (fun a => kfreeN 1 e a v) = some k5
    rw [e4]
    show (kfree e k4 v).bind (fun a => kfreeN 0 e a v) = some k5
    rw [e5]
    rfl
  refine ⟨hK1, ?_, ?_, ?_, ?_, ?_, ?_, ?_, ?_, ?_, ?_⟩
  · rw [c1]
    show some k2.freelist = some k.freelist
    rw [f2]
    rfl
  · rw [c1]
    show some k2.num_freePage = some k.num_freePage
    rw [n2]
    rfl
  · rw [c2]
    show some k3.freelist = some k.freelist
    rw [f3, f2]
    rfl
  · rw [c2]
    show some k3.num_freePage = some k.num_freePage
    rw [n3, n2]
    rfl
  · rw [c3]
    show some k4.freelist = some k.freelist
    rw [f4, f3, f2]
    rfl
  · rw [c3]
    show some k4.num_freePage = some k.num_freePage
    rw [n4, n3, n2]
    rfl
  · rw [c4]
    show some k5.freelist = some (v :: k.freelist)
    rw [f5, f4, f3, f2]
    rfl
  · rw [c4]
    show some k5.num_freePage = some (k.num_freePage + 1)
    rw [n5, n4, n3, n2]
    rfl
  · rw [c4]
    show some (k5.ref_cnt (V2P v / PGSIZE)) = some 0
    rw [r5]
  · rw [c4]
    show some (k5.junk v) = some true
    rw [j5]

/-- Witness for C7 at a concrete input: the page at `KERNBASE + 8192`
with count 1 is recycled exactly on the fourth `kfree`. -/
theorem c7_refcount_roundtrip_witness :
    (kfreeN 4 KERNBASE (incr3 c7K (V2P c7V)) c7V).map Kmem.freelist =
      some (c7V :: c7K.freelist) :=
  (c7_refcount_roundtrip KERNBASE c7V c7K (by decide) (by decide) (by decide)
    (by decide)).2.2.2.2.2.2.2.1

/-- Claim C8 is false on the code, at a concrete input: `kfree` on the
correctly aligned, in-range page `c8V` whose count is already 0 does
not panic — it returns normally and even pushes the frame onto the free
list again, incrementing the free-page counter. -/
theorem c8_counterexample :
    c8K.ref_cnt (V2P c8V / PGSIZE) = 0 ∧
    c8V % PGSIZE = 0 ∧ KERNBASE ≤ c8V ∧ V2P c8V < PHYSTOP ∧
    (kfree KERNBASE c8K c8V).map Kmem.freelist = some [c8V] ∧
    (kfree KERNBASE c8K c8V).map Kmem.num_freePage = some 1 := by
  decide

/-- Claim C8 as amended: `kfree` on an aligned, in-range frame whose
count is already 0 is silently tolerated, not caught: the guard skips
the decrement, and since the count is 0 the frame is (re)pushed onto
the free list with the counter incremented and the page junk-filled;
the fatal assertion fires only for misaligned, below-end or
out-of-range addresses. -/
theorem c8_kfree_silent_at_zero (e v : Nat) (k : Kmem)
    (hal : v % PGSIZE = 0) (hlo : e ≤ v) (hhi : V2P v < PHYSTOP)
    (hz : k.ref_cnt (V2P v / PGSIZE) = 0) :
    (kfree e k v).map Kmem.freelist = some (v :: k.freelist) ∧
    (kfree e k v).map Kmem.num_freePage = some (k.num_freePage + 1) ∧
    (kfree e k v).map (fun a => a.ref_cnt (V2P v / PGSIZE)) = some 0 ∧
    (kfree e k v).map (fun a => a.junk v) = some true ∧
    (∀ w k0, (w % PGSIZE ≠ 0 ∨ w < e ∨ PHYSTOP ≤ V2P w) →
      kfree e k0 w = none) := by
  have hrc := kfree_rc_of_zero k (V2P v / PGSIZE) hz
  have he := kfree_eq_recycle e v k hal hlo hhi hrc
  rw [he]
  refine ⟨rfl, rfl, ?_, ?_, ?_⟩
  · show some ((upd k.ref_cnt (V2P v / PGSIZE)
      (kfree_rc k (V2P v / PGSIZE))) (V2P v / PGSIZE)) = some 0
    simp [upd, hrc]
  · show some ((upd k.junk v true) v) = some true
    simp [upd]
  · intro w k0 hbad
    exact kfree_eq_panic e w k0 hbad

/-- Witness for the amended C8 at a concrete input. -/
theorem c8_kfree_silent_at_zero_witness :
    (kfree KERNBASE c8K c8V).map (fun a => a.junk c8V) = some true :=
  (c8_kfree_silent_at_zero KERNBASE c8V c8K (by decide) (by decide) (by decide)
    (by decide)).2.2.2.1

/-- Claim C9 is false on the code, at a concrete input: `decr_refc` on
a frame whose count is 0 drives the count to -1. -/
theorem c9_counterexample :
    c9K.ref_cnt 2 = 0 ∧ (decr_refc c9K 8192).ref_cnt 2 = -1 := by
  decide

/-- Claim C9 as amended: `kalloc`, `kfree` and `incr_refc` preserve
non-negativity of every reference count (`kfree` guards its decrement,
so release-page alone never drives a count below zero), but `decr_refc`
decrements unconditionally and can drive a count below zero. -/
theorem c9_nonneg_preservation (e v pa : Nat) (k k2 : Kmem) (r : Nat)
    (hk : ∀ j, 0 ≤ k.ref_cnt j) :
    (∀ j, 0 ≤ (incr_refc k pa).ref_cnt j) ∧
    (kalloc k = some (k2, r) → ∀ j, 0 ≤ k2.ref_cnt j) ∧
    (kfree e k v = some k2 → ∀ j, 0 ≤ k2.ref_cnt j) := by
  refine ⟨?_, ?_, ?_⟩
  · intro j
    show 0 ≤ upd k.ref_cnt (pa / PGSIZE) (k.ref_cnt (pa / PGSIZE) + 1) j
    simp only [upd]
    split
    · have := hk (pa / PGSIZE)
      omega
    · exact hk j
  · intro ha j
    unfold kalloc at ha
    cases hl : k.freelist with
    | nil =>
      rw [hl] at ha
      exact absurd ha (by simp)
    | cons r0 rest =>
      rw [hl] at ha
      simp only [Option.some.injEq, Prod.mk.injEq] at ha
      obtain ⟨h1, h2⟩ := ha
      rw [← h1]
      show 0 ≤ upd k.ref_cnt (V2P r0 / PGSIZE) 1 j
      simp only [upd]
      split
      · omega
      · exact hk j
  · intro hf j
    by_cases hb : v % PGSIZE ≠ 0 ∨ v < e ∨ PHYSTOP ≤ V2P v
    · rw [kfree_eq_panic e v k hb] at hf
      exact absurd hf (by simp)
    · push_neg at hb
      obtain ⟨hal, hlo, hhi⟩ := hb
      by_cases hz : kfree_rc k (V2P v / PGSIZE) = 0
      · rw [kfree_eq_recycle e v k hal hlo hhi hz] at hf
        injection hf with hf
        rw [← hf]
        show 0 ≤ upd k.ref_cnt (V2P v / PGSIZE) (kfree_rc k (V2P v / PGSIZE)) j
        simp only [upd]
        split
        · exact le_of_eq hz.symm
        · exact hk j
      · rw [kfree_eq_keep e v k hal hlo hhi hz] at hf
        injection hf with hf
        rw [← hf]
        show 0 ≤ upd k.ref_cnt (V2P v / PGSIZE) (kfree_rc k (V2P v / PGSIZE)) j
        simp only [upd]
        split
        · exact kfree_rc_nonneg k (V2P v / PGSIZE) (hk (V2P v / PGSIZE))
        · exact hk j

/-- Witness for the amended C9 at a concrete input. -/
theorem c9_nonneg_preservation_witness :
    0 ≤ (incr_refc c9K 0).ref_cnt 5 :=
  (c9_nonneg_preservation KERNBASE 0 0 c9K c9K 0 (fun _ => le_refl 0)).1 5

/-- `killLoop` targets the first matching pid regardless of state. -/
theorem killLoop_found (pid : Nat) (l1 : List Proc) (p : Proc) (l2 : List Proc)
    (hfirst : ∀ q ∈ l1, q.pid ≠ pid) (hp : p.pid = pid)
    (hns : p.state ≠ SLEEPING) :
    killLoop pid (l1 ++ p :: l2) =
      (l1 ++ { p with killed := true } :: l2, 0) := by
  induction l1 with
  | nil =>
    rw [List.nil_append]
    unfold killLoop
    rw [if_pos hp, if_neg hns]
    rfl
  | cons x l1 ih =>
    have hx : x.pid ≠ pid := hfirst x (List.mem_cons_self x l1)
    have hr := ih (fun q hq => hfirst q (List.mem_cons_of_mem x hq))
    show killLoop pid (x :: (l1 ++ p :: l2)) = _
    unfold killLoop
    rw [if_neg hx, hr]
    rfl

/-- `setprioLoop` targets the first matching pid regardless of state. -/
theorem setprioLoop_found (pid : Nat) (pr : Int) (l1 : List Proc) (p : Proc)
    (l2 : List Proc) (hfirst : ∀ q ∈ l1, q.pid ≠ pid) (hp : p.pid = pid) :
    setprioLoop pid pr (l1 ++ p :: l2) =
      (l1 ++ { p with priority := pr } :: l2, 0) := by
  induction l1 with
  | nil =>
    rw [List.nil_append]
    unfold setprioLoop
    rw [if_pos hp]
    rfl
  | cons x l1 ih =>
    have hx : x.pid ≠ pid := hfirst x (List.mem_cons_self x l1)
    have hr := ih (fun q hq => hfirst q (List.mem_cons_of_mem x hq))
    show setprioLoop pid pr (x :: (l1 ++ p :: l2)) = _
    unfold setprioLoop
    rw [if_neg hx, hr]
    rfl

/-- Claim C10: `kill` and `setpriority` locate their target purely by
pid equality without checking the slot's state.  For a table whose
first slot with pid 0 is a slot reaped by `wait` (pid cleared to 0,
state UNUSED), `kill 0` returns success 0 and sets the killed flag on
that UNUSED slot, and `setpriority 0 pr` with `pr` in 0..10 returns
success 0 and writes the priority into that UNUSED slot, instead of
failing with the no-such-pid sentinel -1. -/
theorem c10_kill_setpriority_reclaimed (t : PTable) (l1 : List Proc) (z : Proc)
    (l2 : List Proc) (pr : Int)
    (hsplit : t.procs = l1 ++ reap z :: l2)
    (hfirst : ∀ q ∈ l1, q.pid ≠ 0)
    (hpr0 : 0 ≤ pr) (hpr10 : pr ≤ 10) :
    (reap z).state = UNUSED ∧ (reap z).pid = 0 ∧
    kill t 0 = ({ t with procs := l1 ++ { reap z with killed := true } :: l2 }, 0) ∧
    setpriority t 0 pr =
      ({ t with procs := l1 ++ { reap z with priority := pr } :: l2 }, 0) := by
  have hz : (reap z).pid = 0 := rfl
  have hns : (reap z).state ≠ SLEEPING := by
    show UNUSED ≠ SLEEPING
    decide
  refine ⟨rfl, rfl, ?_, ?_⟩
  · unfold kill
    rw [hsplit, killLoop_found 0 l1 (reap z) l2 hfirst hz hns]
  · unfold setpriority
    rw [if_neg (by push_neg; exact ⟨hpr0, hpr10⟩), hsplit,
      setprioLoop_found 0 pr l1 (reap z) l2 hfirst hz]

/-- Witness for C10 at a concrete input: a table with a live pid-1
process and a reaped ZOMBIE slot; `kill 0` sets the killed flag on the
UNUSED slot and reports success. -/
theorem c10_kill_setpriority_reclaimed_witness :
    kill c10T 0 =
      ({ c10T with procs := [c10A, { reap c10Z with killed := true }] }, 0) :=
  (c10_kill_setpriority_reclaimed c10T [c10A] c10Z [] 3 rfl (by decide)
    (by decide) (by decide)).2.2.1
